import Mathlib

/-!
Verification development for the ckb-pop-cli repository.

The definitions below are a shallow embedding of the Rust sources:
`src/crypto.rs` (protocol cryptography and payload codecs),
`src/rpc.rs` (indexer pagination), `src/commands/badge.rs` (badge
listing filter), `src/commands/attend.rs` (attendance pipeline) and
`src/signer/browser.rs` (local signing session loop).  Machine
integers are modelled as `Nat`/`Int` with explicit reduction modulo
2^32 where the Rust code relies on 32-bit wrap-around (inside
SHA-256); Rust strings are modelled as Lean `String`/`List Char`
(every delimiter the code splits on is ASCII, so character-level and
byte-level splitting agree); byte buffers are `List Nat` with each
element below 256.
-/

/-! ## The SHA-256 function (the sha2 crate dependency, FIPS 180-4) -/

def mask32 (n : Nat) : Nat := n % 4294967296

def rotr (k x : Nat) : Nat := mask32 ((x >>> k) ||| (x <<< (32 - k)))

def bigSigma0 (x : Nat) : Nat := (rotr 2 x) ^^^ (rotr 13 x) ^^^ (rotr 22 x)

def bigSigma1 (x : Nat) : Nat := (rotr 6 x) ^^^ (rotr 11 x) ^^^ (rotr 25 x)

def smallSigma0 (x : Nat) : Nat := (rotr 7 x) ^^^ (rotr 18 x) ^^^ (x >>> 3)

def smallSigma1 (x : Nat) : Nat := (rotr 17 x) ^^^ (rotr 19 x) ^^^ (x >>> 10)

def chFn (x y z : Nat) : Nat := (x &&& y) ^^^ ((x ^^^ 4294967295) &&& z)

def majFn (x y z : Nat) : Nat := (x &&& y) ^^^ (x &&& z) ^^^ (y &&& z)

def sha256K : List Nat :=
  [1116352408, 1899447441, 3049323471, 3921009573,
   961987163, 1508970993, 2453635748, 2870763221,
   3624381080, 310598401, 607225278, 1426881987,
   1925078388, 2162078206, 2614888103, 3248222580,
   3835390401, 4022224774, 264347078, 604807628,
   770255983, 1249150122, 1555081692, 1996064986,
   2554220882, 2821834349, 2952996808, 3210313671,
   3336571891, 3584528711, 113926993, 338241895,
   666307205, 773529912, 1294757372, 1396182291,
   1695183700, 1986661051, 2177026350, 2456956037,
   2730485921, 2820302411, 3259730800, 3345764771,
   3516065817, 3600352804, 4094571909, 275423344,
   430227734, 506948616, 659060556, 883997877,
   958139571, 1322822218, 1537002063, 1747873779,
   1955562222, 2024104815, 2227730452, 2361852424,
   2428436474, 2756734187, 3204031479, 3329325298]

structure Hash8 where
  a : Nat
  b : Nat
  c : Nat
  d : Nat
  e : Nat
  f : Nat
  g : Nat
  h : Nat

def sha256Init : Hash8 :=
  ⟨1779033703, 3144134277, 1013904242, 2773480762, 1359893119, 2600822924, 528734635, 1541459225⟩

def sha256Round (s : Hash8) (k w : Nat) : Hash8 :=
  let t1 := mask32 (s.h + bigSigma1 s.e + chFn s.e s.f s.g + k + w)
  let t2 := mask32 (bigSigma0 s.a + majFn s.a s.b s.c)
  ⟨mask32 (t1 + t2), s.a, s.b, s.c, mask32 (s.d + t1), s.e, s.f, s.g⟩

/-- Big-endian 4-byte groups to 32-bit words. -/
def bytesToWords : List Nat → List Nat
  | b0 :: b1 :: b2 :: b3 :: rest =>
      ((b0 <<< 24) ||| (b1 <<< 16) ||| (b2 <<< 8) ||| b3) :: bytesToWords rest
  | _ => []

/-- Message-schedule extension: append 48 more words to the 16 block words. -/
def schedGo : Nat → Array Nat → Array Nat
  | 0, w => w
  | fuel + 1, w =>
      let n := w.size
      let nw := mask32 (smallSigma1 (w.getD (n - 2) 0) + w.getD (n - 7) 0 +
                        smallSigma0 (w.getD (n - 15) 0) + w.getD (n - 16) 0)
      schedGo fuel (w.push nw)

def addHash (x y : Hash8) : Hash8 :=
  ⟨mask32 (x.a + y.a), mask32 (x.b + y.b), mask32 (x.c + y.c), mask32 (x.d + y.d),
   mask32 (x.e + y.e), mask32 (x.f + y.f), mask32 (x.g + y.g), mask32 (x.h + y.h)⟩

def processBlock (s : Hash8) (block : List Nat) : Hash8 :=
  let ws := (schedGo 48 (bytesToWords block).toArray).toList
  let t := (sha256K.zip ws).foldl (fun st p => sha256Round st p.1 p.2) s
  addHash s t

def processBlocksGo : Nat → Hash8 → List Nat → Hash8
  | 0, s, _ => s
  | _, s, [] => s
  | fuel + 1, s, bytes => processBlocksGo fuel (processBlock s (bytes.take 64)) (bytes.drop 64)

/-- Big-endian 8-byte encoding of the bit length. -/
def beBytes8 (n : Nat) : List Nat :=
  [(n >>> 56) % 256, (n >>> 48) % 256, (n >>> 40) % 256, (n >>> 32) % 256,
   (n >>> 24) % 256, (n >>> 16) % 256, (n >>> 8) % 256, n % 256]

def padMsg (msg : List Nat) : List Nat :=
  let len := msg.length
  let zeros := (119 - len % 64) % 64
  msg ++ 0x80 :: List.replicate zeros 0 ++ beBytes8 (len * 8)

def wordBytes (w : Nat) : List Nat :=
  [(w >>> 24) % 256, (w >>> 16) % 256, (w >>> 8) % 256, w % 256]

def sha256 (msg : List Nat) : List Nat :=
  let padded := padMsg msg
  let s := processBlocksGo padded.length sha256Init padded
  wordBytes s.a ++ wordBytes s.b ++ wordBytes s.c ++ wordBytes s.d ++
  wordBytes s.e ++ wordBytes s.f ++ wordBytes s.g ++ wordBytes s.h

/-! ## UTF-8 and hex encodings -/

/-- UTF-8 encoding of one character (`str::as_bytes` on the Rust side). -/
def charUtf8 (c : Char) : List Nat :=
  let n := c.toNat
  if n < 0x80 then [n]
  else if n < 0x800 then [0xC0 ||| (n >>> 6), 0x80 ||| (n &&& 0x3F)]
  else if n < 0x10000 then
    [0xE0 ||| (n >>> 12), 0x80 ||| ((n >>> 6) &&& 0x3F), 0x80 ||| (n &&& 0x3F)]
  else
    [0xF0 ||| (n >>> 18), 0x80 ||| ((n >>> 12) &&& 0x3F),
     0x80 ||| ((n >>> 6) &&& 0x3F), 0x80 ||| (n &&& 0x3F)]

def strBytes (s : String) : List Nat := (s.data.map charUtf8).flatten

def hexDigitChar (n : Nat) : Char :=
  match n with
  | 0 => '0' | 1 => '1' | 2 => '2' | 3 => '3' | 4 => '4'
  | 5 => '5' | 6 => '6' | 7 => '7' | 8 => '8' | 9 => '9'
  | 10 => 'a' | 11 => 'b' | 12 => 'c' | 13 => 'd' | 14 => 'e'
  | _ => 'f'

/-- Lowercase hex rendering of a byte list (the `hex` crate's `encode`). -/
def hexEncode (bytes : List Nat) : List Char :=
  (bytes.map (fun b => [hexDigitChar (b / 16 % 16), hexDigitChar (b % 16)])).flatten

/-! ## Decimal rendering and parsing of integers

Rust's `i64` `Display` writes the canonical decimal form (digits, a
leading minus for negatives); `str::parse::<i64>` accepts an optional
sign followed by one or more digits and fails on overflow.  Both are
modelled here: `fmtIntL` renders (fuel-based so it reduces in the
kernel), `parseI64L` parses with the i64 range bounds. -/

def fmtNatGo : Nat → Nat → List Char → List Char
  | 0, _, acc => acc
  | fuel + 1, n, acc =>
      if n = 0 then acc else fmtNatGo fuel (n / 10) (Nat.digitChar (n % 10) :: acc)

def fmtNat (n : Nat) : List Char :=
  if n = 0 then ['0'] else fmtNatGo n n []

def fmtIntL (i : Int) : List Char :=
  if i < 0 then '-' :: fmtNat i.natAbs else fmtNat i.natAbs

def digitVal (c : Char) : Option Nat :=
  if 48 ≤ c.toNat ∧ c.toNat ≤ 57 then some (c.toNat - 48) else none

def parseDigitsGo : List Char → Nat → Option Nat
  | [], acc => some acc
  | c :: rest, acc =>
      match digitVal c with
      | some d => parseDigitsGo rest (10 * acc + d)
      | none => none

def parseNatDigits (l : List Char) : Option Nat :=
  match l with
  | [] => none
  | _ => parseDigitsGo l 0

def i64Max : Nat := 9223372036854775807

/-- Rust `str::parse::<i64>`: optional sign, a non-empty digit run, i64 bounds. -/
def parseI64L (l : List Char) : Option Int :=
  match l with
  | '+' :: rest =>
      (parseNatDigits rest).bind fun n => if n ≤ i64Max then some (n : Int) else none
  | '-' :: rest =>
      (parseNatDigits rest).bind fun n => if n ≤ i64Max + 1 then some (-(n : Int)) else none
  | _ =>
      (parseNatDigits l).bind fun n => if n ≤ i64Max then some (n : Int) else none

/-! ## Embedding of src/crypto.rs -/

/-- Embedding of `build_type_script_args`: the 64-byte args used by both dob-badge and
event-anchor type scripts, `SHA256(primary) || SHA256(secondary)`. -/
def build_type_script_args (primary secondary : String) : List Nat :=
  sha256 (strBytes primary) ++ sha256 (strBytes secondary)

/-- The three-field payload encoded in every attendance QR code. -/
structure QrPayload where
  event_id : String
  timestamp : Int
  hmac : String
deriving DecidableEq

/-- The split step of `str::splitn(3, sep)`: the run before the first
separator, and (when a separator occurs) the remainder after it. -/
def splitFirst (sep : Char) : List Char → List Char × Option (List Char)
  | [] => ([], none)
  | c :: rest =>
      if c = sep then ([], some rest)
      else
        let p := splitFirst sep rest
        (c :: p.1, p.2)

/-- Embedding of `QrPayload::parse`: split `event_id|timestamp|hmac` with
`splitn(3, '|')` (so the third field is the unsplit remainder), parse the
timestamp as i64, and reject an empty event id or hmac. -/
def QrPayload.parse (data : String) : Option QrPayload :=
  match splitFirst '|' data.data with
  | (_, none) => none
  | (p1, some r1) =>
    match splitFirst '|' r1 with
    | (_, none) => none
    | (p2, some p3) =>
      match parseI64L p2 with
      | none => none
      | some ts =>
        let event_id := String.mk p1
        let hmac := String.mk p3
        if event_id = "" ∨ hmac = "" then none
        else some ⟨event_id, ts, hmac⟩

/-- Embedding of `QrPayload::encode`: back to the pipe-delimited format. -/
def QrPayload.encode (p : QrPayload) : String :=
  p.event_id ++ "|" ++ String.mk (fmtIntL p.timestamp) ++ "|" ++ p.hmac

/-- Embedding of `attendance_message`: the message an attendee signs. -/
def attendance_message (event_id : String) (qr_timestamp : Int) (attendee_address : String) : String :=
  "CKB-PoP|" ++ event_id ++ "|" ++ String.mk (fmtIntL qr_timestamp) ++ "|" ++ attendee_address

/-- Embedding of `window_message`: the message an event creator signs to open a window. -/
def window_message (event_id : String) (window_start : Int) (window_end : Option Int) : String :=
  let end_part :=
    match window_end with
    | some ts => String.mk (fmtIntL ts)
    | none => "open"
  "CKB-PoP-Window|" ++ event_id ++ "|" ++ String.mk (fmtIntL window_start) ++ "|" ++ end_part

/-- JSON string escaping as `serde_json` performs it when serialising:
quote, backslash and the control characters are escaped, everything else
is written as-is. -/
def jsonEscChar (c : Char) : List Char :=
  if c = '"' then ['\\', '"']
  else if c = '\\' then ['\\', '\\']
  else if c.toNat = 8 then ['\\', 'b']
  else if c.toNat = 9 then ['\\', 't']
  else if c.toNat = 10 then ['\\', 'n']
  else if c.toNat = 12 then ['\\', 'f']
  else if c.toNat = 13 then ['\\', 'r']
  else if c.toNat < 32 then
    ['\\', 'u', '0', '0', hexDigitChar (c.toNat / 16), hexDigitChar (c.toNat % 16)]
  else [c]

def jsonStr (s : String) : String :=
  String.mk ('"' :: (s.data.map jsonEscChar).flatten ++ ['"'])

/-- The `serde_json::json!` content object of `build_badge_cell_data`,
serialised by `serde_json::to_string`.  `serde_json`'s default map is a
`BTreeMap`, so the keys appear in sorted order:
event_id, issuer, proof_hash, protocol, version. -/
def badge_content_json (event_id issuer : String) (proof_hash : Option String) : String :=
  match proof_hash with
  | some ph =>
      "\x7b\"event_id\":" ++ jsonStr event_id ++ ",\"issuer\":" ++ jsonStr issuer ++
      ",\"proof_hash\":" ++ jsonStr ph ++ ",\"protocol\":\"ckb-pop\",\"version\":1\x7d"
  | none =>
      "\x7b\"event_id\":" ++ jsonStr event_id ++ ",\"issuer\":" ++ jsonStr issuer ++
      ",\"protocol\":\"ckb-pop\",\"version\":1\x7d"

/-- Embedding of `build_badge_cell_data`: 34-byte dob-badge cell data,
`[version: u8 | flags: u8 | content_hash: 32 bytes]`; both the version
byte and the flags byte are pushed as the literal `0x01`. -/
def build_badge_cell_data (event_id issuer : String) (proof_hash : Option String) : List Nat :=
  1 :: 1 :: sha256 (strBytes (badge_content_json event_id issuer proof_hash))

/-! ## Embedding of src/rpc.rs: indexer pagination -/

/-- One `get_cells` response page: the `objects` array and the optional
`last_cursor` token. -/
structure Page (α κ : Type) where
  objects : List α
  lastCursor : Option κ

/-- Embedding of `RpcClient::get_all_cells`, with the indexer modelled as the sequence
of pages its successive responses deliver: extend the accumulator with
each page's objects, stop on an empty page (before reading its cursor)
or on a page without a cursor. -/
def get_all_cells {α κ : Type} : List (Page α κ) → List α
  | [] => []
  | p :: rest =>
      if p.objects.isEmpty then []
      else
        p.objects ++
          match p.lastCursor with
          | none => []
          | some _ => get_all_cells rest

/-! ## Embedding of src/commands/badge.rs: the local subject filter of list_badges -/

/-- The Rust step `strip_prefix("0x").unwrap_or(a)` on the args hex string. -/
def stripHexPfx (l : List Char) : List Char :=
  match l with
  | '0' :: 'x' :: rest => rest
  | _ => l

/-- The filter `list_badges` applies to each cell returned by
`find_all_badges`: compute
`addr_hash = hex(SHA256(address)[..20])` and keep the cell unless
`args.len() < 80 || args[40..80] != addr_hash`. -/
def list_badges_keeps (address : String) (cellArgs : String) : Bool :=
  let args := stripHexPfx cellArgs.data
  let addr_hash := hexEncode ((sha256 (strBytes address)).take 20)
  !(args.length < 80 || ((args.drop 40).take 40) ≠ addr_hash)

/-- The filter the specification describes for subject-scoped queries:
keep exactly the cells whose second 32-byte half of the 64-byte args
equals `SHA256(subject address)` (hex characters 64..128). -/
def claim_subject_filter (address : String) (cellArgs : String) : Bool :=
  let args := stripHexPfx cellArgs.data
  ((args.drop 64).take 64) = hexEncode (sha256 (strBytes address))

/-! ## Embedding of src/commands/attend.rs: the attendance pipeline head -/

/-- How far the attendance pipeline of `commands/attend.rs` gets before
its first signer interaction: QR parsing (step 1) and the freshness
check (step 2) happen first; only in the `signing` state does the flow
go on to sign the attendance proof and build/broadcast the mint
transaction (steps 3-6). -/
inductive AttendStep where
  | invalidQr
  | expired (age : Int)
  | signing (msg : String)
deriving DecidableEq

/-- Steps 1-2 of `attend::run` plus the attendance message of step 4:
parse the QR payload, compute `age = now - qr.timestamp`, bail unless
`(0..=60).contains(&age)`, and otherwise proceed to signing
`attendance_message(event_id, timestamp, address)`. -/
def attend_check (qr_data : String) (now : Int) (address : String) : AttendStep :=
  match QrPayload.parse qr_data with
  | none => .invalidQr
  | some qr =>
      let age := now - qr.timestamp
      if 0 ≤ age ∧ age ≤ 60 then
        .signing (attendance_message qr.event_id qr.timestamp address)
      else
        .expired age

/-! ## Embedding of src/signer/browser.rs: the local signing session

`run_browser_session` serves raw TCP requests one at a time in a loop:
the CCC bundle asset, the request descriptor, the signing page for any
other GET, a 404 otherwise; the first `POST /callback` either fails the
session (body that `serde_json` cannot parse) or completes it with the
parsed value, and in both cases the loop exits and the listener is
dropped.  `serde_json::from_str` is an external library; it is
modelled as a parameter `jp : String → Option Json` given to the
session, and JSON values as the inductive `Json`. -/

inductive Json where
  | null
  | bool (b : Bool)
  | num (n : Int)
  | str (s : String)
  | arr (elems : List Json)
  | obj (fields : List (String × Json))

def findField (key : String) : List (String × Json) → Option Json
  | [] => none
  | (k, v) :: rest => if k = key then some v else findField key rest

/-- Embedding of `value["error"].as_str()`: indexing a non-object or a missing key
gives `Null`, and `as_str` accepts only a string. -/
def errField (v : Json) : Option String :=
  match v with
  | .obj fields =>
      match findField "error" fields with
      | some (.str s) => some s
      | _ => none
  | _ => none

/-- Rust `starts_with` on the raw request text. -/
def listStartsWith : List Char → List Char → Bool
  | _, [] => true
  | [], _ :: _ => false
  | a :: l, b :: p => a == b && listStartsWith l p

def isCallbackReq (r : String) : Bool :=
  listStartsWith r.data "POST /callback".data

/-- The body after the first blank line of the HTTP request, as
`raw.find("\r\n\r\n").map(|i| &raw[i + 4..]).unwrap_or("")` takes it. -/
def bodyAfterBlank : List Char → List Char
  | '\r' :: '\n' :: '\r' :: '\n' :: rest => rest
  | _ :: rest => bodyAfterBlank rest
  | [] => []

def callbackBody (r : String) : String :=
  String.mk (bodyAfterBlank r.data)

/-- What one loop iteration serves for one raw request, following the
branch order of the source: the bundle, the request descriptor, the
callback (parse failure aborts the session through `?`), the signing
page for any other GET, and a 404 otherwise. -/
inductive SessionResp where
  | bundle
  | requestJson
  | callbackOk (v : Json)
  | callbackBad
  | page
  | notFound

def handleReq (jp : String → Option Json) (r : String) : SessionResp :=
  if listStartsWith r.data "GET /ccc-bundle.js".data then .bundle
  else if listStartsWith r.data "GET /request".data then .requestJson
  else if listStartsWith r.data "POST /callback".data then
    match jp (callbackBody r) with
    | none => .callbackBad
    | some v => .callbackOk v
  else if listStartsWith r.data "GET".data then .page
  else .notFound

/-- How the accept loop ends: still waiting for more connections,
failed on a malformed callback body, or completed by the first
callback's parsed value (sent through the oneshot channel and
followed by `break`). -/
inductive LoopOut where
  | blocked
  | failed (e : String)
  | completed (v : Json)

/-- The accept loop over the sequence of incoming raw requests: every
non-callback request is answered and the loop continues; the first
callback request ends the loop, so the returned request list is the
list of requests the listener actually served. -/
def sessionLoop (jp : String → Option Json) : List String → List String × LoopOut
  | [] => ([], .blocked)
  | r :: rest =>
      match handleReq jp r with
      | .callbackOk v => ([r], .completed v)
      | .callbackBad => ([r], .failed "invalid callback JSON")
      | _ => ((r :: (sessionLoop jp rest).1), (sessionLoop jp rest).2)

/-- The overall result of `run_browser_session`: `rx.await` on the
oneshot channel followed by the error-field check
(`Err(anyhow!("wallet error: {err}"))` when `v["error"]` is a string,
`Ok(v)` otherwise).  `none` means the loop is still blocked waiting. -/
def sessionOutcome (jp : String → Option Json) (reqs : List String) : Option (Except String Json) :=
  match (sessionLoop jp reqs).2 with
  | .blocked => none
  | .failed e => some (.error e)
  | .completed v =>
      match errField v with
      | some e => some (.error ("wallet error: " ++ e))
      | none => some (.ok v)

/-! ## Auxiliary definitions used by proofs and witnesses -/

/-- A concrete stand-in for the external `serde_json::from_str` used to
instantiate session theorems on closed inputs: body "E" parses to an
object with an error field, body "V" to an object without one, and
everything else fails to parse. -/
def jparse0 : String → Option Json := fun s =>
  if s = "E" then some (Json.obj [("error", Json.str "boom")])
  else if s = "V" then some (Json.obj [("ok", Json.bool true)])
  else none

/-- Least-significant-first decimal digits of a natural number,
fuel-based; the analysis view of `fmtNatGo`. -/
def digitsRev : Nat → Nat → List Nat
  | 0, _ => []
  | fuel + 1, n => if n = 0 then [] else n % 10 :: digitsRev fuel (n / 10)

/-- Value of a least-significant-first digit list. -/
def valLsb : List Nat → Nat
  | [] => 0
  | d :: ds => d + 10 * valLsb ds

/-! ## Theorems -/

theorem sha256_length (msg : List Nat) : (sha256 msg).length = 32 := by
  simp [sha256, wordBytes]

set_option maxRecDepth 40000 in
/-- Sanity anchor for the SHA-256 embedding: the FIPS 180-4 test vectors
for the empty message and for "abc". -/
theorem sha256_test_vectors :
    String.mk (hexEncode (sha256 [])) =
      "e3b0c44298fc1c149afbf4c8996fb92427ae41e4649b934ca495991b7852b855" ∧
    String.mk (hexEncode (sha256 (strBytes "abc"))) =
      "ba7816bf8f01cfea414140de5dae2223b00361a396177a9cb410ff61f20015ad" := by
  exact ⟨by decide, by decide⟩

set_option maxRecDepth 40000 in
/-- C1: the code of `list_badges` does NOT keep the badge cells whose
second 32-byte half of the type-script args is SHA256(subject address).
A genuine badge cell for event "evt1" and address "addr1" — its args
are exactly `build_type_script_args "evt1" "addr1"`, hex-encoded with a
"0x" front marker, as `mint_badge`/`build_badge_mint` create and the
indexer reports them — satisfies the subject condition the claim (and
the spec) describes, yet `list_badges` drops it: the code compares hex
characters 40..80 (args bytes 20..40) against the hex of the first 20
bytes of SHA256(address), not hex characters 64..128 (args bytes
32..64) against SHA256(address). -/
theorem list_badges_drops_genuine_badge :
    claim_subject_filter "addr1"
      ("0x" ++ String.mk (hexEncode (build_type_script_args "evt1" "addr1"))) = true ∧
    list_badges_keeps "addr1"
      ("0x" ++ String.mk (hexEncode (build_type_script_args "evt1" "addr1"))) = false := by
  exact ⟨by decide, by decide⟩

/-- C2 counterexample: the window-open message for event "EVT001" and
window_start 1700000000 with end=None is not the spec scenario's
string "PoP-Window|EVT001|1700000000|open" — the code's frozen tag is
"CKB-PoP-Window". -/
theorem message_tag_counterexample :
    window_message "EVT001" 1700000000 none ≠ "PoP-Window|EVT001|1700000000|open" := by
  decide

/-- C2 amended: the scenario strings carry the tag "CKB-PoP": the
window-open message for event "EVT001", window_start 1700000000 and
end=None is "CKB-PoP-Window|EVT001|1700000000|open", with
end=1700003600 it is "CKB-PoP-Window|EVT001|1700000000|1700003600",
and the attendance message for event "EVT001", timestamp 1700000000,
attendee "addr-X" is "CKB-PoP|EVT001|1700000000|addr-X". -/
theorem signed_message_scenarios :
    window_message "EVT001" 1700000000 none = "CKB-PoP-Window|EVT001|1700000000|open" ∧
    window_message "EVT001" 1700000000 (some 1700003600) =
      "CKB-PoP-Window|EVT001|1700000000|1700003600" ∧
    attendance_message "EVT001" 1700000000 "addr-X" = "CKB-PoP|EVT001|1700000000|addr-X" := by
  exact ⟨by decide, by decide, by decide⟩

/-- C7: for every input, the badge record encoder returns exactly 34
bytes laid out as version(1) + flags(1) + content hash(32): byte 0 is
1, byte 1 is 1 when proof_hash is present, and the 32-byte tail is the
SHA-256 hash of the canonical (sorted-key, compact) JSON serialisation
of the content object {protocol: "ckb-pop", version: 1, event_id,
issuer, proof_hash?}. -/
theorem badge_record_layout (e i : String) (ph : Option String) :
    (build_badge_cell_data e i ph).length = 34 ∧
    (build_badge_cell_data e i ph).get? 0 = some 1 ∧
    (ph.isSome → (build_badge_cell_data e i ph).get? 1 = some 1) ∧
    (build_badge_cell_data e i ph).drop 2 =
      sha256 (strBytes (badge_content_json e i ph)) := by
  refine ⟨?_, rfl, fun _ => rfl, rfl⟩
  simp [build_badge_cell_data, sha256_length]

theorem badge_record_layout_witness :
    (build_badge_cell_data "evt1" "ckt1qissuer" (some "ab")).length = 34 ∧
    (build_badge_cell_data "evt1" "ckt1qissuer" (some "ab")).get? 0 = some 1 ∧
    ((some "ab").isSome →
      (build_badge_cell_data "evt1" "ckt1qissuer" (some "ab")).get? 1 = some 1) ∧
    (build_badge_cell_data "evt1" "ckt1qissuer" (some "ab")).drop 2 =
      sha256 (strBytes (badge_content_json "evt1" "ckt1qissuer" (some "ab"))) :=
  badge_record_layout "evt1" "ckt1qissuer" (some "ab")

/-- C10: byte 1 (the flags byte) of the badge record encoder's output is
the literal 1 whether proof_hash is Some or None, so the flags byte does
not distinguish records with metadata from records without it. -/
theorem badge_flags_constant (e i : String) (ph : Option String) :
    (build_badge_cell_data e i ph).get? 1 = some 1 ∧
    (build_badge_cell_data e i ph).get? 1 = (build_badge_cell_data e i none).get? 1 := by
  have h1 : (build_badge_cell_data e i ph).get? 1 = some 1 := rfl
  have h2 : (build_badge_cell_data e i none).get? 1 = some 1 := rfl
  exact ⟨h1, h1.trans h2.symm⟩

theorem badge_flags_constant_witness :
    (build_badge_cell_data "evt1" "iss1" (some "p")).get? 1 = some 1 ∧
    (build_badge_cell_data "evt1" "iss1" (some "p")).get? 1 =
      (build_badge_cell_data "evt1" "iss1" none).get? 1 :=
  badge_flags_constant "evt1" "iss1" (some "p")

/-- C4: for a page sequence in which every page before the final one is
non-empty and carries a cursor, and the final page is empty or carries
no cursor, `get_all_cells` returns the concatenation of all page item
lists — every item occurrence, in first-seen order — so when the items
are pairwise distinct it is the union, each exactly once; and it stops
at that final page: any pages an indexer could serve past it are never
requested. -/
theorem get_all_cells_pagination {α κ : Type} (body : List (Page α κ)) (last : Page α κ)
    (hbody : ∀ p ∈ body, p.objects ≠ [] ∧ p.lastCursor ≠ none)
    (hlast : last.objects = [] ∨ last.lastCursor = none) :
    get_all_cells (body ++ [last]) = ((body ++ [last]).map Page.objects).flatten ∧
    (∀ extra, get_all_cells (body ++ last :: extra) = get_all_cells (body ++ [last])) ∧
    (((body ++ [last]).map Page.objects).flatten.Nodup →
      (get_all_cells (body ++ [last])).Nodup) := by
  induction body with
  | nil =>
      refine ⟨?_, ?_, ?_⟩
      · rcases hlast with h | h
        · simp [get_all_cells, h]
        · by_cases he : last.objects = []
          · simp [get_all_cells, he]
          · simp [get_all_cells, he, h]
      · intro extra
        rcases hlast with h | h
        · simp [get_all_cells, h]
        · by_cases he : last.objects = []
          · simp [get_all_cells, he]
          · simp [get_all_cells, he, h]
      · intro hnd
        rcases hlast with h | h
        · simp [get_all_cells, h]
        · by_cases he : last.objects = []
          · simp [get_all_cells, he]
          · simpa [get_all_cells, he, h] using hnd
  | cons p body ih =>
      obtain ⟨hne, hcur⟩ := hbody p (List.mem_cons_self p body)
      obtain ⟨c, hc⟩ : ∃ c, p.lastCursor = some c := by
        cases hx : p.lastCursor with
        | none => exact absurd hx hcur
        | some c => exact ⟨c, rfl⟩
      have hbody' : ∀ q ∈ body, q.objects ≠ [] ∧ q.lastCursor ≠ none :=
        fun q hq => hbody q (List.mem_cons_of_mem p hq)
      obtain ⟨ih1, ih2, _⟩ := ih hbody'
      have hne' : p.objects.isEmpty = false := by
        cases hx : p.objects with
        | nil => exact absurd hx hne
        | cons a l => rfl
      refine ⟨?_, ?_, ?_⟩
      · simp only [List.cons_append, get_all_cells, hne', hc, Bool.false_eq_true,
          if_false, List.append_eq, ih1, List.map_cons, List.flatten_cons]
      · intro extra
        simp only [List.cons_append, get_all_cells, hne', hc, Bool.false_eq_true,
          if_false, List.append_eq, ih2 extra]
      · intro hnd
        have h1 : get_all_cells ((p :: body) ++ [last]) =
            ((p :: body ++ [last]).map Page.objects).flatten := by
          simp only [List.cons_append, get_all_cells, hne', hc, Bool.false_eq_true,
            if_false, List.append_eq, ih1, List.map_cons, List.flatten_cons]
        rw [List.cons_append] at h1 ⊢
        rw [h1]
        simpa using hnd

theorem get_all_cells_pagination_witness :
    (∀ p ∈ [Page.mk [1, 2] (some 10), Page.mk [3] (some 11)],
      p.objects ≠ ([] : List Nat) ∧ p.lastCursor ≠ (none : Option Nat)) ∧
    ((Page.mk ([] : List Nat) (none : Option Nat)).objects = [] ∨
      (Page.mk ([] : List Nat) (none : Option Nat)).lastCursor = none) ∧
    (get_all_cells ([Page.mk [1, 2] (some 10), Page.mk [3] (some 11)] ++
        [Page.mk ([] : List Nat) (none : Option Nat)]) =
      (([Page.mk [1, 2] (some 10), Page.mk [3] (some 11)] ++
        [Page.mk ([] : List Nat) (none : Option Nat)]).map Page.objects).flatten ∧
    (∀ extra, get_all_cells ([Page.mk [1, 2] (some 10), Page.mk [3] (some 11)] ++
        Page.mk ([] : List Nat) (none : Option Nat) :: extra) =
      get_all_cells ([Page.mk [1, 2] (some 10), Page.mk [3] (some 11)] ++
        [Page.mk ([] : List Nat) (none : Option Nat)])) ∧
    ((([Page.mk [1, 2] (some 10), Page.mk [3] (some 11)] ++
        [Page.mk ([] : List Nat) (none : Option Nat)]).map Page.objects).flatten.Nodup →
      (get_all_cells ([Page.mk [1, 2] (some 10), Page.mk [3] (some 11)] ++
        [Page.mk ([] : List Nat) (none : Option Nat)])).Nodup)) :=
  ⟨by decide, by decide,
   get_all_cells_pagination [Page.mk [1, 2] (some 10), Page.mk [3] (some 11)]
     (Page.mk [] none) (by decide) (by decide)⟩

/-- C6: with a parsed QR payload, the attendance flow proceeds to the
signing/transaction-building stage exactly when
0 ≤ now - timestamp ≤ 60 (the Rust test is
`(0..=60).contains(&now - qr.timestamp)`); for any other age it bails
out in the `expired` state, which precedes the signer resolution,
message signing and badge-mint transaction of steps 3-6. -/
theorem attend_freshness_gate (qr_data : String) (qr : QrPayload) (now : Int) (address : String)
    (hparse : QrPayload.parse qr_data = some qr) :
    ((0 ≤ now - qr.timestamp ∧ now - qr.timestamp ≤ 60) ↔
      attend_check qr_data now address =
        .signing (attendance_message qr.event_id qr.timestamp address)) ∧
    (¬(0 ≤ now - qr.timestamp ∧ now - qr.timestamp ≤ 60) →
      attend_check qr_data now address = .expired (now - qr.timestamp)) := by
  unfold attend_check
  rw [hparse]
  by_cases h : 0 ≤ now - qr.timestamp ∧ now - qr.timestamp ≤ 60
  · simp [h]
  · simp [h]

theorem attend_freshness_gate_witness :
    QrPayload.parse "evt|100|code" = some ⟨"evt", 100, "code"⟩ ∧
    (((0 ≤ (130 : Int) - (100 : Int) ∧ (130 : Int) - (100 : Int) ≤ 60) ↔
      attend_check "evt|100|code" 130 "addr" =
        .signing (attendance_message "evt" 100 "addr")) ∧
    (¬(0 ≤ (130 : Int) - (100 : Int) ∧ (130 : Int) - (100 : Int) ≤ 60) →
      attend_check "evt|100|code" 130 "addr" = .expired ((130 : Int) - (100 : Int)))) :=
  ⟨by decide, attend_freshness_gate "evt|100|code" ⟨"evt", 100, "code"⟩ 130 "addr" (by decide)⟩

/-! ### Session-loop helper lemmas -/

theorem listStartsWith_trans (l p q : List Char) (hpq : listStartsWith p q = true)
    (hlp : listStartsWith l p = true) : listStartsWith l q = true := by
  induction q generalizing p l with
  | nil => simp [listStartsWith]
  | cons c qs ih =>
      cases p with
      | nil => simp [listStartsWith] at hpq
      | cons d ps =>
          cases l with
          | nil => simp [listStartsWith] at hlp
          | cons a ls =>
              simp only [listStartsWith, Bool.and_eq_true, beq_iff_eq] at hpq hlp ⊢
              exact ⟨hlp.1.trans hpq.1, ih _ _ hpq.2 hlp.2⟩

theorem starts_ne_first (l : List Char) (c d : Char) (p q : List Char) (hcd : c ≠ d)
    (h : listStartsWith l (c :: p) = true) : listStartsWith l (d :: q) = false := by
  cases l with
  | nil => simp [listStartsWith] at h
  | cons a ls =>
      simp only [listStartsWith, Bool.and_eq_true, beq_iff_eq] at h
      simp [listStartsWith, h.1, hcd]

theorem handleReq_noncb (jp : String → Option Json) (r : String)
    (h : isCallbackReq r = false) :
    handleReq jp r = .bundle ∨ handleReq jp r = .requestJson ∨
    handleReq jp r = .page ∨ handleReq jp r = .notFound := by
  unfold isCallbackReq at h
  unfold handleReq
  split_ifs with h1 h2 h3 h4
  · exact Or.inl rfl
  · exact Or.inr (Or.inl rfl)
  · simp [h] at h3
  · exact Or.inr (Or.inr (Or.inl rfl))
  · exact Or.inr (Or.inr (Or.inr rfl))

theorem sessionLoop_cons_noncb (jp : String → Option Json) (r : String) (l : List String)
    (h : isCallbackReq r = false) :
    sessionLoop jp (r :: l) = (r :: (sessionLoop jp l).1, (sessionLoop jp l).2) := by
  rcases handleReq_noncb jp r h with h' | h' | h' | h' <;> simp [sessionLoop, h']

theorem sessionLoop_cb (jp : String → Option Json) (b : String) (l : List String)
    (hb : isCallbackReq b = true) :
    sessionLoop jp (b :: l) =
      ([b], match jp (callbackBody b) with
            | none => LoopOut.failed "invalid callback JSON"
            | some v => LoopOut.completed v) := by
  have h1 : listStartsWith b.data "GET /ccc-bundle.js".data = false :=
    starts_ne_first b.data 'P' 'G' "OST /callback".data "ET /ccc-bundle.js".data (by decide) hb
  have h2 : listStartsWith b.data "GET /request".data = false :=
    starts_ne_first b.data 'P' 'G' "OST /callback".data "ET /request".data (by decide) hb
  have hb' := hb
  simp only [isCallbackReq] at hb'
  cases hj : jp (callbackBody b) with
  | none => simp [sessionLoop, handleReq, h1, h2, hb', hj]
  | some v => simp [sessionLoop, handleReq, h1, h2, hb', hj]

theorem sessionLoop_first_cb (jp : String → Option Json) (pre : List String) (b : String)
    (post : List String) (hpre : ∀ r ∈ pre, isCallbackReq r = false)
    (hb : isCallbackReq b = true) :
    sessionLoop jp (pre ++ b :: post) =
      (pre ++ [b], match jp (callbackBody b) with
            | none => LoopOut.failed "invalid callback JSON"
            | some v => LoopOut.completed v) := by
  induction pre with
  | nil => simpa using sessionLoop_cb jp b post hb
  | cons r pre ih =>
      have hr := hpre r (List.mem_cons_self r pre)
      have ih' := ih (fun x hx => hpre x (List.mem_cons_of_mem r hx))
      rw [List.cons_append, sessionLoop_cons_noncb jp r _ hr, ih']
      simp

/-- C3: the session completes exactly once.  For every execution of the
accept loop — any requests before the first callback, the first
callback `b`, and any requests after it (second callbacks included) —
the loop's behaviour equals its behaviour on the sequence that stops at
`b`: the served-request list is exactly the prefix up to and including
`b` (the listener is torn down immediately after, so no further request
is accepted), the loop is no longer waiting, and whatever arrives in
`post` never alters the already-resolved result. -/
theorem session_exactly_once (jp : String → Option Json) (pre post : List String) (b : String)
    (hpre : ∀ r ∈ pre, isCallbackReq r = false) (hb : isCallbackReq b = true) :
    sessionLoop jp (pre ++ b :: post) = sessionLoop jp (pre ++ [b]) ∧
    (sessionLoop jp (pre ++ b :: post)).1 = pre ++ [b] ∧
    (sessionLoop jp (pre ++ b :: post)).2 ≠ LoopOut.blocked := by
  have h1 := sessionLoop_first_cb jp pre b post hpre hb
  have h2 := sessionLoop_first_cb jp pre b [] hpre hb
  refine ⟨h1.trans h2.symm, by rw [h1], ?_⟩
  rw [h1]
  cases hj : jp (callbackBody b) <;> simp [hj]

theorem session_exactly_once_witness :
    (∀ r ∈ ["GET / HTTP/1.1"], isCallbackReq r = false) ∧
    isCallbackReq "POST /callback\r\n\r\nV" = true ∧
    (sessionLoop jparse0
        (["GET / HTTP/1.1"] ++ "POST /callback\r\n\r\nV" :: ["POST /callback\r\n\r\nE"]) =
      sessionLoop jparse0 (["GET / HTTP/1.1"] ++ ["POST /callback\r\n\r\nV"]) ∧
    (sessionLoop jparse0
        (["GET / HTTP/1.1"] ++ "POST /callback\r\n\r\nV" :: ["POST /callback\r\n\r\nE"])).1 =
      ["GET / HTTP/1.1"] ++ ["POST /callback\r\n\r\nV"] ∧
    (sessionLoop jparse0
        (["GET / HTTP/1.1"] ++ "POST /callback\r\n\r\nV" :: ["POST /callback\r\n\r\nE"])).2 ≠
      LoopOut.blocked) :=
  ⟨by decide, by decide,
   session_exactly_once jparse0 ["GET / HTTP/1.1"] ["POST /callback\r\n\r\nE"]
     "POST /callback\r\n\r\nV" (by decide) (by decide)⟩

/-- C9 counterexample: a callback whose parsed body carries the error
field "boom" makes the session fail with the message
"wallet error: boom" — not with exactly the error message "boom"
itself. -/
theorem session_error_message_counterexample :
    sessionOutcome jparse0 ["POST /callback\r\n\r\nE"] =
      some (Except.error "wallet error: boom") ∧
    sessionOutcome jparse0 ["POST /callback\r\n\r\nE"] ≠ some (Except.error "boom") := by
  have h1 : sessionOutcome jparse0 ["POST /callback\r\n\r\nE"] =
      some (Except.error "wallet error: boom") := rfl
  refine ⟨h1, ?_⟩
  rw [h1]
  intro h
  injection h with h2
  injection h2 with h3
  exact absurd h3 (by decide)

/-- C9 amended: on the first callback the session parses the body as a
result value; a body the JSON parser rejects fails the session with an
error (no crash), a parsed value whose "error" field is a string `e`
fails it with the message "wallet error: " ++ e, and any other parsed
value makes it succeed with exactly that value. -/
theorem session_callback_result (jp : String → Option Json) (pre post : List String) (b : String)
    (hpre : ∀ r ∈ pre, isCallbackReq r = false) (hb : isCallbackReq b = true) :
    (jp (callbackBody b) = none →
      sessionOutcome jp (pre ++ b :: post) = some (Except.error "invalid callback JSON")) ∧
    (∀ v e, jp (callbackBody b) = some v → errField v = some e →
      sessionOutcome jp (pre ++ b :: post) = some (Except.error ("wallet error: " ++ e))) ∧
    (∀ v, jp (callbackBody b) = some v → errField v = none →
      sessionOutcome jp (pre ++ b :: post) = some (Except.ok v)) := by
  have h1 := sessionLoop_first_cb jp pre b post hpre hb
  refine ⟨fun hj => ?_, fun v e hj he => ?_, fun v hj he => ?_⟩
  · simp [sessionOutcome, h1, hj]
  · simp [sessionOutcome, h1, hj, he]
  · simp [sessionOutcome, h1, hj, he]

theorem session_callback_result_witness :
    (∀ r ∈ ([] : List String), isCallbackReq r = false) ∧
    isCallbackReq "POST /callback\r\n\r\nE" = true ∧
    ((jparse0 (callbackBody "POST /callback\r\n\r\nE") = none →
      sessionOutcome jparse0 ([] ++ "POST /callback\r\n\r\nE" :: []) =
        some (Except.error "invalid callback JSON")) ∧
    (∀ v e, jparse0 (callbackBody "POST /callback\r\n\r\nE") = some v → errField v = some e →
      sessionOutcome jparse0 ([] ++ "POST /callback\r\n\r\nE" :: []) =
        some (Except.error ("wallet error: " ++ e))) ∧
    (∀ v, jparse0 (callbackBody "POST /callback\r\n\r\nE") = some v → errField v = none →
      sessionOutcome jparse0 ([] ++ "POST /callback\r\n\r\nE" :: []) =
        some (Except.ok v))) :=
  ⟨by decide, by decide,
   session_callback_result jparse0 [] [] "POST /callback\r\n\r\nE" (by decide) (by decide)⟩

/-- C8: while the session awaits its client, the socket serves exactly
three logical endpoints: the request-descriptor read (GET /request),
the interactive asset/page read (GET /ccc-bundle.js and the signing
page for every other GET), and the single result write
(POST /callback, whose handling completes or fails the session); every
request that is neither a GET nor a callback write receives the generic
not-found response, and only those do. -/
theorem session_three_endpoints (jp : String → Option Json) (r : String) :
    (handleReq jp r = .notFound ↔
      (listStartsWith r.data "GET".data = false ∧ isCallbackReq r = false)) ∧
    (listStartsWith r.data "GET".data = true →
      handleReq jp r = .bundle ∨ handleReq jp r = .requestJson ∨ handleReq jp r = .page) ∧
    (isCallbackReq r = true →
      (∃ v, handleReq jp r = .callbackOk v) ∨ handleReq jp r = .callbackBad) := by
  unfold handleReq isCallbackReq
  split_ifs with h1 h2 h3 h4
  · have hget : listStartsWith r.data "GET".data = true :=
      listStartsWith_trans r.data "GET /ccc-bundle.js".data "GET".data (by decide) h1
    have hncb : listStartsWith r.data "POST /callback".data = false :=
      starts_ne_first r.data 'G' 'P' "ET /ccc-bundle.js".data "OST /callback".data
        (by decide) h1
    refine ⟨?_, fun _ => Or.inl rfl, fun hcb => ?_⟩
    · simp [hget]
    · simp [hncb] at hcb
  · have hget : listStartsWith r.data "GET".data = true :=
      listStartsWith_trans r.data "GET /request".data "GET".data (by decide) h2
    have hncb : listStartsWith r.data "POST /callback".data = false :=
      starts_ne_first r.data 'G' 'P' "ET /request".data "OST /callback".data (by decide) h2
    refine ⟨?_, fun _ => Or.inr (Or.inl rfl), fun hcb => ?_⟩
    · simp [hget]
    · simp [hncb] at hcb
  · have hnget : listStartsWith r.data "GET".data = false :=
      starts_ne_first r.data 'P' 'G' "OST /callback".data "ET".data (by decide) h3
    cases hj : jp (callbackBody r) with
    | none =>
        refine ⟨?_, fun hg => ?_, fun _ => Or.inr rfl⟩
        · simp [h3]
        · simp [hnget] at hg
    | some v =>
        refine ⟨?_, fun hg => ?_, fun _ => Or.inl ⟨v, rfl⟩⟩
        · simp [h3]
        · simp [hnget] at hg
  · refine ⟨?_, fun _ => Or.inr (Or.inr rfl), fun hcb => ?_⟩
    · simp [h4]
    · simp [h3] at hcb
  · refine ⟨?_, fun hg => ?_, fun hcb => ?_⟩
    · simp only [Bool.not_eq_true] at h3 h4
      simp [h3, h4]
    · simp [hg] at h4
    · simp [hcb] at h3

theorem session_three_endpoints_witness :
    ((handleReq jparse0 "PUT /x HTTP/1.1" = .notFound ↔
      (listStartsWith "PUT /x HTTP/1.1".data "GET".data = false ∧
        isCallbackReq "PUT /x HTTP/1.1" = false)) ∧
    (listStartsWith "PUT /x HTTP/1.1".data "GET".data = true →
      handleReq jparse0 "PUT /x HTTP/1.1" = .bundle ∨
      handleReq jparse0 "PUT /x HTTP/1.1" = .requestJson ∨
      handleReq jparse0 "PUT /x HTTP/1.1" = .page) ∧
    (isCallbackReq "PUT /x HTTP/1.1" = true →
      (∃ v, handleReq jparse0 "PUT /x HTTP/1.1" = .callbackOk v) ∨
      handleReq jparse0 "PUT /x HTTP/1.1" = .callbackBad)) :=
  session_three_endpoints jparse0 "PUT /x HTTP/1.1"

/-! ### Decimal round-trip lemmas -/

theorem fmtNatGo_eq (fuel : Nat) : ∀ (n : Nat) (acc : List Char),
    fmtNatGo fuel n acc = (digitsRev fuel n).reverse.map Nat.digitChar ++ acc := by
  induction fuel with
  | zero => intro n acc; simp [fmtNatGo, digitsRev]
  | succ f ih =>
      intro n acc
      by_cases h : n = 0
      · simp [fmtNatGo, digitsRev, h]
      · simp only [fmtNatGo, digitsRev, h, if_false]
        rw [ih]
        simp [List.reverse_cons, List.map_append, List.append_assoc]

theorem digitsRev_val (fuel : Nat) : ∀ n : Nat, n ≤ fuel → valLsb (digitsRev fuel n) = n := by
  induction fuel with
  | zero =>
      intro n h
      simp only [digitsRev, valLsb]
      omega
  | succ f ih =>
      intro n h
      by_cases h0 : n = 0
      · simp [digitsRev, h0, valLsb]
      · have hlt : n / 10 ≤ f := by
          have := Nat.div_lt_self (Nat.pos_of_ne_zero h0) (by norm_num : 1 < 10)
          omega
        simp only [digitsRev, h0, if_false, valLsb]
        rw [ih _ hlt]
        omega

theorem digitsRev_lt10 (fuel : Nat) : ∀ (n d : Nat), d ∈ digitsRev fuel n → d < 10 := by
  induction fuel with
  | zero => intro n d hd; simp [digitsRev] at hd
  | succ f ih =>
      intro n d hd
      by_cases h0 : n = 0
      · simp [digitsRev, h0] at hd
      · simp only [digitsRev, h0, if_false, List.mem_cons] at hd
        rcases hd with rfl | hd
        · exact Nat.mod_lt n (by norm_num)
        · exact ih _ _ hd

theorem digitVal_digitChar (d : Nat) (hd : d < 10) : digitVal (Nat.digitChar d) = some d := by
  interval_cases d <;> decide

theorem digitChar_facts (d : Nat) (hd : d < 10) :
    Nat.digitChar d ≠ '+' ∧ Nat.digitChar d ≠ '-' ∧ Nat.digitChar d ≠ '|' := by
  interval_cases d <;> exact ⟨by decide, by decide, by decide⟩

theorem parseDigitsGo_digits (ms : List Nat) : ∀ a : Nat, (∀ d ∈ ms, d < 10) →
    parseDigitsGo (ms.map Nat.digitChar) a = some (ms.foldl (fun x d => 10 * x + d) a) := by
  induction ms with
  | nil => intro a _; rfl
  | cons d ds ih =>
      intro a h
      have hd := h d (List.mem_cons_self d ds)
      simp only [List.map_cons, parseDigitsGo, digitVal_digitChar d hd]
      rw [ih (10 * a + d) (fun x hx => h x (List.mem_cons_of_mem d hx))]
      simp [List.foldl_cons]

theorem foldl_reverse_val (ds : List Nat) : ∀ a : Nat,
    ds.reverse.foldl (fun x d => 10 * x + d) a = a * 10 ^ ds.length + valLsb ds := by
  induction ds with
  | nil => intro a; simp [valLsb]
  | cons d ds ih =>
      intro a
      simp only [List.reverse_cons, List.foldl_append, List.foldl_cons, List.foldl_nil, ih,
        List.length_cons, valLsb]
      ring

theorem digitsRev_ne_nil (fuel n : Nat) (h1 : n ≠ 0) (h2 : fuel ≠ 0) :
    digitsRev fuel n ≠ [] := by
  cases fuel with
  | zero => exact absurd rfl h2
  | succ f => simp [digitsRev, h1]

theorem fmtNat_eq_digits (n : Nat) (h : n ≠ 0) :
    fmtNat n = (digitsRev n n).reverse.map Nat.digitChar := by
  unfold fmtNat
  rw [if_neg h, fmtNatGo_eq]
  simp

theorem fmtNat_ne_nil (n : Nat) : fmtNat n ≠ [] := by
  by_cases h : n = 0
  · simp [fmtNat, h]
  · rw [fmtNat_eq_digits n h]
    intro hc
    apply digitsRev_ne_nil n n h h
    simpa using congrArg List.length hc

theorem fmtNat_chars (n : Nat) (c : Char) (hc : c ∈ fmtNat n) :
    ∃ d, d < 10 ∧ c = Nat.digitChar d := by
  by_cases h : n = 0
  · simp [fmtNat, h] at hc
    exact ⟨0, by omega, by simp [hc]; rfl⟩
  · rw [fmtNat_eq_digits n h] at hc
    simp only [List.mem_map, List.mem_reverse] at hc
    obtain ⟨d, hd, rfl⟩ := hc
    exact ⟨d, digitsRev_lt10 n n d hd, rfl⟩

theorem parseNat_fmtNat (n : Nat) : parseNatDigits (fmtNat n) = some n := by
  by_cases h : n = 0
  · subst h; decide
  · rw [fmtNat_eq_digits n h]
    obtain ⟨c, t, hct⟩ : ∃ c t, (digitsRev n n).reverse.map Nat.digitChar = c :: t := by
      cases hl : (digitsRev n n).reverse.map Nat.digitChar with
      | nil =>
          exfalso
          apply digitsRev_ne_nil n n h h
          simpa using congrArg List.length hl
      | cons c t => exact ⟨c, t, rfl⟩
    have hdig : ∀ d ∈ (digitsRev n n).reverse, d < 10 :=
      fun d hd => digitsRev_lt10 n n d (List.mem_reverse.mp hd)
    have hrun := parseDigitsGo_digits (digitsRev n n).reverse 0 hdig
    rw [hct] at hrun
    have hstep : parseNatDigits (c :: t) = parseDigitsGo (c :: t) 0 := rfl
    rw [hct, hstep, hrun, foldl_reverse_val, digitsRev_val n n le_rfl]
    simp

theorem parseI64L_neg (t : List Char) :
    parseI64L ('-' :: t) =
      (parseNatDigits t).bind fun n => if n ≤ i64Max + 1 then some (-(n : Int)) else none := rfl

theorem parseI64L_default (c : Char) (t : List Char) (h1 : c ≠ '+') (h2 : c ≠ '-') :
    parseI64L (c :: t) =
      (parseNatDigits (c :: t)).bind fun n => if n ≤ i64Max then some (n : Int) else none := by
  unfold parseI64L
  split
  · rename_i rest heq
    injection heq with hh _
    exact absurd hh h1
  · rename_i rest heq
    injection heq with hh _
    exact absurd hh h2
  · rfl

theorem parseI64L_fmtIntL (ts : Int) (hlo : -(2 ^ 63) ≤ ts) (hhi : ts < 2 ^ 63) :
    parseI64L (fmtIntL ts) = some ts := by
  have e1 : ((2 : Int) ^ 63) = 9223372036854775808 := by norm_num
  rw [e1] at hlo hhi
  unfold fmtIntL
  by_cases hneg : ts < 0
  · rw [if_pos hneg, parseI64L_neg, parseNat_fmtNat]
    have hb : ts.natAbs ≤ i64Max + 1 := by unfold i64Max; omega
    simp only [Option.some_bind, if_pos hb]
    congr 1
    omega
  · rw [if_neg hneg]
    cases hl : fmtNat ts.natAbs with
    | nil => exact absurd hl (fmtNat_ne_nil ts.natAbs)
    | cons c t =>
        obtain ⟨d, hd, rfl⟩ :=
          fmtNat_chars ts.natAbs c (by rw [hl]; exact List.mem_cons_self c t)
        rw [parseI64L_default (Nat.digitChar d) t (digitChar_facts d hd).1
          (digitChar_facts d hd).2.1, ← hl, parseNat_fmtNat]
        have hb : ts.natAbs ≤ i64Max := by unfold i64Max; omega
        simp only [Option.some_bind, if_pos hb]
        congr 1
        omega

theorem str_data_append (s t : String) : (s ++ t).data = s.data ++ t.data := rfl

theorem str_data_mk (l : List Char) : (String.mk l).data = l := rfl

theorem str_mk_data (s : String) : String.mk s.data = s := rfl

theorem fmtIntL_no_pipe (ts : Int) : '|' ∉ fmtIntL ts := by
  unfold fmtIntL
  split
  · intro hmem
    rcases List.mem_cons.mp hmem with h | h
    · simp at h
    · obtain ⟨d, hd, hc⟩ := fmtNat_chars _ _ h
      exact (digitChar_facts d hd).2.2 hc.symm
  · intro hmem
    obtain ⟨d, hd, hc⟩ := fmtNat_chars _ _ hmem
    exact (digitChar_facts d hd).2.2 hc.symm

theorem splitFirst_append (sep : Char) (l r : List Char) (h : sep ∉ l) :
    splitFirst sep (l ++ sep :: r) = (l, some r) := by
  induction l with
  | nil => simp [splitFirst]
  | cons c cl ih =>
      have hc : c ≠ sep := fun hc => h (hc ▸ List.mem_cons_self c cl)
      have ih' := ih (fun hx => h (List.mem_cons_of_mem c hx))
      simp [splitFirst, hc, ih']

/-- C5 counterexample: a payload whose event id itself contains the
delimiter does not round-trip: encoding "a|b"/0/"c" and parsing the
result does not give back the original payload (the parse reads "a" as
the event id and fails on "b" as the timestamp). -/
theorem qr_roundtrip_counterexample :
    QrPayload.parse (QrPayload.encode ⟨"a|b", 0, "c"⟩) ≠ some ⟨"a|b", 0, "c"⟩ := by
  decide

/-- C5 amended: for every QrPayload whose event_id is non-empty and free
of the delimiter character, whose code string is non-empty, and whose
timestamp is any i64 value, parsing the encoded pipe-delimited form
yields back exactly the original payload. -/
theorem qr_roundtrip_amended (id code : String) (ts : Int)
    (hid : id ≠ "") (hcode : code ≠ "") (hpipe : '|' ∉ id.data)
    (hlo : -(2 ^ 63) ≤ ts) (hhi : ts < 2 ^ 63) :
    QrPayload.parse (QrPayload.encode ⟨id, ts, code⟩) = some ⟨id, ts, code⟩ := by
  have hdata : (QrPayload.encode ⟨id, ts, code⟩).data =
      id.data ++ '|' :: (fmtIntL ts ++ '|' :: code.data) := by
    show (id ++ "|" ++ String.mk (fmtIntL ts) ++ "|" ++ code).data = _
    simp [str_data_append, str_data_mk, show ("|" : String).data = ['|'] from rfl,
      List.append_assoc]
  unfold QrPayload.parse
  simp only [hdata, splitFirst_append '|' id.data _ hpipe,
    splitFirst_append '|' (fmtIntL ts) code.data (fmtIntL_no_pipe ts),
    parseI64L_fmtIntL ts hlo hhi, str_mk_data]
  simp [hid, hcode]

theorem qr_roundtrip_amended_witness :
    ("abc123" ≠ "" ∧ "deadbeef01234567" ≠ "" ∧ '|' ∉ "abc123".data ∧
      -(2 ^ 63) ≤ (1700000000 : Int) ∧ (1700000000 : Int) < 2 ^ 63) ∧
    QrPayload.parse (QrPayload.encode ⟨"abc123", 1700000000, "deadbeef01234567"⟩) =
      some ⟨"abc123", 1700000000, "deadbeef01234567"⟩ :=
  ⟨⟨by decide, by decide, by decide, by decide, by decide⟩,
   qr_roundtrip_amended "abc123" "deadbeef01234567" 1700000000 (by decide) (by decide)
     (by decide) (by decide) (by decide)⟩
